import Mathlib

/- Verification development for the flightseek route engine.

   Shallow embedding of:
   * the data model (src/types: Airport, Airline, Route, Filters),
   * the route filtering / selection logic of src/components/FlightMap.tsx
     (routeMatchesAirline, routesToShow, colorAirline, getAirlineColor,
     the route-drawing pass),
   * the independent filter in src/components/Sidebar.tsx (currentRoutes),
   * the great-circle arc computation of src/lib/utils.ts (getArcPoints),
     with JavaScript floating point modelled by exact reals and the
     longitude-unwrap while-loops modelled generically over an ordered
     field. -/

/-- Airport record (src/types/index.ts). -/
structure Airport where
  iata : String
  icao : String
  name : String
  city : String
  country : String
  lat : ℝ
  lon : ℝ
  type : String

/-- Airline record (src/types/index.ts). -/
structure Airline where
  iata : String
  icao : String
  name : String
  country : String

/-- Route record (src/types/index.ts). -/
structure Route where
  origin : String
  destination : String
  operators : List String
  codeshares : List String
  aircraft : List String
deriving DecidableEq

/-- Filter state (src/types/index.ts). -/
structure Filters where
  airlines : List String
  aircraft : List String
  includeCodeshares : Bool
deriving DecidableEq

/-- FlightMap.tsx, routeMatchesAirline: operator match first; codeshare
    match only when includeCodeshares is set. -/
def routeMatchesAirline (route : Route) (airlineCodes : List String)
    (includeCodeshares : Bool) : Bool :=
  let operators := route.operators
  let codeshares := route.codeshares
  let matchesOperator := operators.any (fun a => airlineCodes.contains a)
  if matchesOperator then true
  else if includeCodeshares then codeshares.any (fun a => airlineCodes.contains a)
  else false

/-- FlightMap.tsx, the filter callback inside routesToShow for a selected
    airport: the two early returns of the source are the two conjuncts. -/
def routeFilterPred (filters : Filters) (route : Route) : Bool :=
  (!(decide (0 < filters.airlines.length)) ||
      routeMatchesAirline route filters.airlines filters.includeCodeshares) &&
  (!(decide (0 < filters.aircraft.length)) ||
      route.aircraft.any (fun a => filters.aircraft.contains a))

/-- FlightMap.tsx, routesToShow: the selection resolver.  The map from
    airport code to outbound routes is modelled as a total function
    (`routesByAirport[x] || []`). -/
def routesToShow (selectedAirport : Option Airport)
    (routesByAirport : String → List Route) (allRoutes : List Route)
    (filters : Filters) : List Route :=
  match selectedAirport with
  | some airport => (routesByAirport airport.iata).filter (routeFilterPred filters)
  | none =>
    if 0 < filters.airlines.length then
      allRoutes.filter (fun route =>
        routeMatchesAirline route filters.airlines filters.includeCodeshares)
    else []

/-- Spec 4.4, airline criterion, transcribed from the spec's words for the
    refinement comparison: empty selection always passes; otherwise the
    operators set must intersect the selection, or includeCodeshares is on
    and the codeshares set intersects the selection. -/
def specAirlinePass (route : Route) (filters : Filters) : Bool :=
  filters.airlines.isEmpty ||
    route.operators.any (fun a => filters.airlines.contains a) ||
    (filters.includeCodeshares &&
      route.codeshares.any (fun a => filters.airlines.contains a))

/-- Spec 4.4, aircraft criterion, transcribed from the spec's words. -/
def specAircraftPass (route : Route) (filters : Filters) : Bool :=
  filters.aircraft.isEmpty ||
    route.aircraft.any (fun a => filters.aircraft.contains a)

/-- Spec 4.4, full filter: both criteria must pass. -/
def specMatches (route : Route) (filters : Filters) : Bool :=
  specAirlinePass route filters && specAircraftPass route filters

/-- FlightMap.tsx, colorAirline: with an active airline filter, the first
    operator in the filter, else the first operator (possibly undefined,
    modelled as `none`); with no filter, the first operator or the "XX"
    sentinel. -/
def colorAirline (filters : Filters) (operators : List String) : Option String :=
  if 0 < filters.airlines.length then
    match operators.find? (fun a => filters.airlines.contains a) with
    | some a => some a
    | none => operators.head?
  else some (operators.headD "XX")

/-- JavaScript charCodeAt, with the `|| 0` fallback of the source applied
    to out-of-range indices (the source only relies on it at index 1). -/
def charCodeAt (s : String) (i : ℕ) : ℕ :=
  ((s.data.get? i).map Char.toNat).getD 0

/-- FlightMap.tsx, getAirlineColor: deterministic two-character hash to an
    hsl color string. -/
def getAirlineColor (airlineCode : String) : String :=
  let hue := (charCodeAt airlineCode 0 * 137 + charCodeAt airlineCode 1 * 59) % 360
  "hsl(" ++ toString hue ++ ", 70%, 60%)"

/-- Sidebar.tsx, routeMatchesAirline (duplicated in the source, embedded
    separately so the two implementations can be compared). -/
def sidebarRouteMatchesAirline (route : Route) (airlineCodes : List String)
    (includeCodeshares : Bool) : Bool :=
  let operators := route.operators
  let codeshares := route.codeshares
  let matchesOperator := operators.any (fun a => airlineCodes.contains a)
  if matchesOperator then true
  else if includeCodeshares then codeshares.any (fun a => airlineCodes.contains a)
  else false

/-- Sidebar.tsx, currentRoutes: destination list for the selected airport. -/
def currentRoutes (selectedAirport : Option Airport)
    (routesByAirport : String → List Route) (filters : Filters) : List Route :=
  match selectedAirport with
  | none => []
  | some airport =>
    (routesByAirport airport.iata).filter (fun route =>
      (!(decide (0 < filters.airlines.length)) ||
          sidebarRouteMatchesAirline route filters.airlines filters.includeCodeshares) &&
      (!(decide (0 < filters.aircraft.length)) ||
          route.aircraft.any (fun a => filters.aircraft.contains a)))

/- ------------------------------------------------------------------ -/
/- Helper lemmas on the filter predicates.                            -/
/- ------------------------------------------------------------------ -/

lemma not_lengthPos_eq_isEmpty {α : Type} (l : List α) :
    (!(decide (0 < l.length))) = l.isEmpty := by
  cases l <;> simp

lemma airlineFactor_eq_spec (r : Route) (f : Filters) :
    (!(decide (0 < f.airlines.length)) ||
      routeMatchesAirline r f.airlines f.includeCodeshares) = specAirlinePass r f := by
  simp only [routeMatchesAirline, specAirlinePass]
  rw [not_lengthPos_eq_isEmpty]
  cases hi : f.airlines.isEmpty
  · cases hm : r.operators.any (fun a => f.airlines.contains a) <;>
      cases hic : f.includeCodeshares <;>
      cases hcs : r.codeshares.any (fun a => f.airlines.contains a) <;> rfl
  · rfl

lemma aircraftFactor_eq_spec (r : Route) (f : Filters) :
    (!(decide (0 < f.aircraft.length)) ||
      r.aircraft.any (fun a => f.aircraft.contains a)) = specAircraftPass r f := by
  simp only [specAircraftPass]
  rw [not_lengthPos_eq_isEmpty]

lemma routeMatchesAirline_eq_spec (r : Route) (f : Filters)
    (h : f.airlines ≠ []) :
    routeMatchesAirline r f.airlines f.includeCodeshares = specAirlinePass r f := by
  have hfac := airlineFactor_eq_spec r f
  have hl : (decide (0 < f.airlines.length)) = true := by
    simp [List.length_pos.mpr h]
  rw [hl] at hfac
  simpa using hfac

lemma routeFilterPred_eq_specMatches (f : Filters) (r : Route) :
    routeFilterPred f r = specMatches r f := by
  unfold routeFilterPred specMatches
  rw [airlineFactor_eq_spec, aircraftFactor_eq_spec]

lemma specAirlinePass_iff (r : Route) (f : Filters) :
    specAirlinePass r f = true ↔
      (f.airlines = [] ∨ (∃ a ∈ r.operators, a ∈ f.airlines) ∨
        (f.includeCodeshares = true ∧ ∃ a ∈ r.codeshares, a ∈ f.airlines)) := by
  simp [specAirlinePass, List.any_eq_true, List.isEmpty_iff, List.contains,
    List.elem_iff, Bool.and_eq_true, Bool.or_eq_true, or_assoc]

lemma specAircraftPass_iff (r : Route) (f : Filters) :
    specAircraftPass r f = true ↔
      (f.aircraft = [] ∨ ∃ a ∈ r.aircraft, a ∈ f.aircraft) := by
  simp [specAircraftPass, List.any_eq_true, List.isEmpty_iff, List.contains,
    List.elem_iff, Bool.or_eq_true]

/-- Claim C3: the route filter returns true iff both the airline criterion
    and the aircraft criterion pass; an operator match alone suffices even
    when includeCodeshares is false, and codeshares only ever add matches. -/
theorem routeFilterPred_iff (r : Route) (f : Filters) :
    routeFilterPred f r = true ↔
      ((f.airlines = [] ∨ (∃ a ∈ r.operators, a ∈ f.airlines) ∨
          (f.includeCodeshares = true ∧ ∃ a ∈ r.codeshares, a ∈ f.airlines)) ∧
       (f.aircraft = [] ∨ ∃ a ∈ r.aircraft, a ∈ f.aircraft)) := by
  rw [routeFilterPred_eq_specMatches]
  simp only [specMatches, Bool.and_eq_true]
  exact and_congr (specAirlinePass_iff r f) (specAircraftPass_iff r f)

/-- Claim C2 (amended): the selection resolver's three cases.  With no
    airport and no airline filter the list is empty; with no airport and a
    non-empty airline filter the list is the full collection filtered by
    the AIRLINE criterion of spec 4.4 only (the aircraft criterion is not
    applied in the global airline-network view); with a selected airport
    the list is the route-index lookup filtered through the full 4.4. -/
theorem routesToShow_resolver (ap : Airport) (rba : String → List Route)
    (allRoutes : List Route) (f : Filters) :
    (f.airlines = [] → routesToShow none rba allRoutes f = []) ∧
    (f.airlines ≠ [] →
      routesToShow none rba allRoutes f =
        allRoutes.filter (fun r => specAirlinePass r f)) ∧
    routesToShow (some ap) rba allRoutes f =
      (rba ap.iata).filter (fun r => specMatches r f) := by
  refine ⟨?_, ?_, ?_⟩
  · intro h
    simp [routesToShow, h]
  · intro h
    have hl : 0 < f.airlines.length := List.length_pos.mpr h
    simp only [routesToShow, if_pos hl]
    exact List.filter_congr (fun r _ => routeMatchesAirline_eq_spec r f h)
  · simp only [routesToShow]
    exact List.filter_congr (fun r _ => routeFilterPred_eq_specMatches f r)

/-- Counterexample to claim C2 as stated: with no airport selected,
    airline filter AA and aircraft filter 747, the code shows the
    AA-operated 777 route although the full 4.4 filter (airline AND
    aircraft criteria) rejects it. -/
theorem routesToShow_resolver_counterexample :
    routesToShow none (fun _ => []) [⟨"AAA", "BBB", ["AA"], [], ["777"]⟩]
        ⟨["AA"], ["747"], false⟩ ≠
      List.filter (fun r => specMatches r ⟨["AA"], ["747"], false⟩)
        [⟨"AAA", "BBB", ["AA"], [], ["777"]⟩] := by
  decide

/-- Witness for C2's theorem at concrete inputs. -/
theorem routesToShow_resolver_witness :
    (routesToShow none (fun _ => []) [⟨"AAA", "BBB", ["AA"], [], ["777"]⟩]
        ⟨[], [], false⟩ = []) ∧
    (routesToShow none (fun _ => []) [⟨"AAA", "BBB", ["AA"], [], ["777"]⟩]
        ⟨["AA"], ["747"], false⟩ =
      List.filter (fun r => specAirlinePass r ⟨["AA"], ["747"], false⟩)
        [⟨"AAA", "BBB", ["AA"], [], ["777"]⟩]) ∧
    routesToShow (some ⟨"JFK", "KJFK", "JFK", "New York", "USA", 40, -73, "large"⟩)
        (fun _ => [⟨"JFK", "LHR", ["AA"], [], ["777"]⟩]) []
        ⟨[], [], false⟩ =
      List.filter (fun r => specMatches r ⟨[], [], false⟩)
        [⟨"JFK", "LHR", ["AA"], [], ["777"]⟩] :=
  ⟨(routesToShow_resolver ⟨"JFK", "KJFK", "JFK", "New York", "USA", 40, -73, "large"⟩
      (fun _ => []) [⟨"AAA", "BBB", ["AA"], [], ["777"]⟩] ⟨[], [], false⟩).1 rfl,
   (routesToShow_resolver ⟨"JFK", "KJFK", "JFK", "New York", "USA", 40, -73, "large"⟩
      (fun _ => []) [⟨"AAA", "BBB", ["AA"], [], ["777"]⟩]
      ⟨["AA"], ["747"], false⟩).2.1 (by decide),
   (routesToShow_resolver ⟨"JFK", "KJFK", "JFK", "New York", "USA", 40, -73, "large"⟩
      (fun _ => [⟨"JFK", "LHR", ["AA"], [], ["777"]⟩]) [] ⟨[], [], false⟩).2.2⟩

/-- Claim C5 evidence: a route with no operators that passes the filter
    via a codeshare reaches color assignment with an undefined airline
    code (`none`), on which the source's getAirlineColor would throw a
    TypeError; the "XX" sentinel exists only in the no-filter branch. -/
theorem colorAirline_undefined_on_codeshare_route :
    routeFilterPred ⟨["AA"], [], true⟩ ⟨"AAA", "BBB", [], ["AA"], []⟩ = true ∧
    colorAirline ⟨["AA"], [], true⟩ [] = none ∧
    colorAirline ⟨[], [], false⟩ [] = some "XX" := by
  decide

/-- Claim C7: getAirlineColor is a pure function whose hue is the weighted
    two-character hash of the code, reduced mod 360, with fixed saturation
    70% and lightness 60%. -/
theorem getAirlineColor_hash (s : String) :
    getAirlineColor s =
      "hsl(" ++
        toString ((((s.data.get? 0).map Char.toNat).getD 0 * 137 +
          ((s.data.get? 1).map Char.toNat).getD 0 * 59) % 360) ++
        ", 70%, 60%)" ∧
    (((s.data.get? 0).map Char.toNat).getD 0 * 137 +
        ((s.data.get? 1).map Char.toNat).getD 0 * 59) % 360 < 360 := by
  exact ⟨rfl, Nat.mod_lt _ (by norm_num)⟩

/-- Claim C9: in the airport-selected state the sidebar's destination list
    and the map's drawn list are computed by the same filter: the lists
    are equal, hence a route is drawn iff it is listed. -/
theorem currentRoutes_eq_routesToShow (ap : Airport)
    (rba : String → List Route) (allRoutes : List Route) (f : Filters) :
    currentRoutes (some ap) rba f = routesToShow (some ap) rba allRoutes f := by
  rfl

/- ------------------------------------------------------------------ -/
/- Longitude continuity resolver: the unwrap while-loops of           -/
/- getArcPoints (src/lib/utils.ts).  Modelled generically over a      -/
/- linear ordered field with floor, so the same definitions serve the -/
/- exact-real embedding and executable rational instances.            -/
/- ------------------------------------------------------------------ -/

variable {K : Type} [LinearOrderedField K] [FloorRing K]

/-- First unwrap while-loop of getArcPoints:
    `while (currLon - prevLon > 180) currLon -= 360`. -/
def subLoop [FloorRing K] (prev curr : K) : K :=
  if 180 < curr - prev then subLoop prev (curr - 360) else curr
termination_by (⌈(curr - prev - 180) / 360⌉).toNat
decreasing_by
  have h1 : (0 : K) < (curr - prev - 180) / 360 := by
    apply div_pos
    · linarith
    · norm_num
  have h2 : 0 < ⌈(curr - prev - 180) / 360⌉ := Int.ceil_pos.mpr h1
  have h3 : (curr - 360 - prev - 180) / 360 = (curr - prev - 180) / 360 - 1 := by
    ring
  rw [h3, Int.ceil_sub_one]
  omega

/-- Second unwrap while-loop of getArcPoints:
    `while (currLon - prevLon < -180) currLon += 360`. -/
def addLoop [FloorRing K] (prev curr : K) : K :=
  if curr - prev < -180 then addLoop prev (curr + 360) else curr
termination_by (⌈(prev - curr - 180) / 360⌉).toNat
decreasing_by
  have h1 : (0 : K) < (prev - curr - 180) / 360 := by
    apply div_pos
    · linarith
    · norm_num
  have h2 : 0 < ⌈(prev - curr - 180) / 360⌉ := Int.ceil_pos.mpr h1
  have h3 : (prev - (curr + 360) - 180) / 360 = (prev - curr - 180) / 360 - 1 := by
    ring
  rw [h3, Int.ceil_sub_one]
  omega

/-- Both unwrap loops in source order, applied to one point's longitude. -/
def unwrapAdjust (prev curr : K) : K :=
  addLoop prev (subLoop prev curr)

/-- The unwrap pass from the second point on: each point's longitude is
    adjusted against the previous, already adjusted, point. -/
def unwrapFrom (prev : K) : List (K × K) → List (K × K)
  | [] => []
  | p :: rest =>
    let newLon := unwrapAdjust prev p.2
    (p.1, newLon) :: unwrapFrom newLon rest

/-- The longitude-unwrap pass of getArcPoints (loop
    `for i = 1; i < points.length` in src/lib/utils.ts): the first point
    is untouched. -/
def unwrapLongitudes : List (K × K) → List (K × K)
  | [] => []
  | p :: rest => p :: unwrapFrom p.2 rest

lemma subLoop_eq_self {prev curr : K} (h : ¬ 180 < curr - prev) :
    subLoop prev curr = curr := by
  unfold subLoop
  rw [if_neg h]

lemma subLoop_step {prev curr : K} (h : 180 < curr - prev) :
    subLoop prev curr = subLoop prev (curr - 360) := by
  rw [subLoop.eq_def]
  exact if_pos h

lemma addLoop_eq_self {prev curr : K} (h : ¬ curr - prev < -180) :
    addLoop prev curr = curr := by
  unfold addLoop
  rw [if_neg h]

lemma addLoop_step {prev curr : K} (h : curr - prev < -180) :
    addLoop prev curr = addLoop prev (curr + 360) := by
  rw [addLoop.eq_def]
  exact if_pos h

lemma subLoop_sub_le (prev curr : K) : subLoop prev curr - prev ≤ 180 := by
  by_cases h : 180 < curr - prev
  · rw [subLoop_step h]
    exact subLoop_sub_le prev (curr - 360)
  · rw [subLoop_eq_self h]
    linarith
termination_by (⌈(curr - prev - 180) / 360⌉).toNat
decreasing_by
  have h1 : (0 : K) < (curr - prev - 180) / 360 := by
    apply div_pos
    · linarith
    · norm_num
  have h2 : 0 < ⌈(curr - prev - 180) / 360⌉ := Int.ceil_pos.mpr h1
  have h3 : (curr - 360 - prev - 180) / 360 = (curr - prev - 180) / 360 - 1 := by
    ring
  rw [h3, Int.ceil_sub_one]
  omega

lemma subLoop_cases (prev curr : K) :
    subLoop prev curr = curr ∨ -180 < subLoop prev curr - prev := by
  by_cases h : 180 < curr - prev
  · right
    rw [subLoop_step h]
    rcases subLoop_cases prev (curr - 360) with h1 | h1
    · rw [h1]; linarith
    · linarith
  · left
    exact subLoop_eq_self h
termination_by (⌈(curr - prev - 180) / 360⌉).toNat
decreasing_by
  have h1 : (0 : K) < (curr - prev - 180) / 360 := by
    apply div_pos
    · linarith
    · norm_num
  have h2 : 0 < ⌈(curr - prev - 180) / 360⌉ := Int.ceil_pos.mpr h1
  have h3 : (curr - 360 - prev - 180) / 360 = (curr - prev - 180) / 360 - 1 := by
    ring
  rw [h3, Int.ceil_sub_one]
  omega

lemma subLoop_congr (prev curr : K) :
    ∃ k : ℤ, subLoop prev curr = curr - 360 * (k : K) := by
  by_cases h : 180 < curr - prev
  · rw [subLoop_step h]
    obtain ⟨k, hk⟩ := subLoop_congr prev (curr - 360)
    refine ⟨k + 1, ?_⟩
    rw [hk]
    push_cast
    ring
  · refine ⟨0, ?_⟩
    rw [subLoop_eq_self h]
    push_cast
    ring
termination_by (⌈(curr - prev - 180) / 360⌉).toNat
decreasing_by
  have h1 : (0 : K) < (curr - prev - 180) / 360 := by
    apply div_pos
    · linarith
    · norm_num
  have h2 : 0 < ⌈(curr - prev - 180) / 360⌉ := Int.ceil_pos.mpr h1
  have h3 : (curr - 360 - prev - 180) / 360 = (curr - prev - 180) / 360 - 1 := by
    ring
  rw [h3, Int.ceil_sub_one]
  omega

lemma addLoop_sub_ge (prev curr : K) : -180 ≤ addLoop prev curr - prev := by
  by_cases h : curr - prev < -180
  · rw [addLoop_step h]
    exact addLoop_sub_ge prev (curr + 360)
  · rw [addLoop_eq_self h]
    linarith
termination_by (⌈(prev - curr - 180) / 360⌉).toNat
decreasing_by
  have h1 : (0 : K) < (prev - curr - 180) / 360 := by
    apply div_pos
    · linarith
    · norm_num
  have h2 : 0 < ⌈(prev - curr - 180) / 360⌉ := Int.ceil_pos.mpr h1
  have h3 : (prev - (curr + 360) - 180) / 360 = (prev - curr - 180) / 360 - 1 := by
    ring
  rw [h3, Int.ceil_sub_one]
  omega

lemma addLoop_cases (prev curr : K) :
    addLoop prev curr = curr ∨ addLoop prev curr - prev < 180 := by
  by_cases h : curr - prev < -180
  · right
    rw [addLoop_step h]
    rcases addLoop_cases prev (curr + 360) with h1 | h1
    · rw [h1]; linarith
    · linarith
  · left
    exact addLoop_eq_self h
termination_by (⌈(prev - curr - 180) / 360⌉).toNat
decreasing_by
  have h1 : (0 : K) < (prev - curr - 180) / 360 := by
    apply div_pos
    · linarith
    · norm_num
  have h2 : 0 < ⌈(prev - curr - 180) / 360⌉ := Int.ceil_pos.mpr h1
  have h3 : (prev - (curr + 360) - 180) / 360 = (prev - curr - 180) / 360 - 1 := by
    ring
  rw [h3, Int.ceil_sub_one]
  omega

lemma addLoop_congr (prev curr : K) :
    ∃ k : ℤ, addLoop prev curr = curr + 360 * (k : K) := by
  by_cases h : curr - prev < -180
  · rw [addLoop_step h]
    obtain ⟨k, hk⟩ := addLoop_congr prev (curr + 360)
    refine ⟨k + 1, ?_⟩
    rw [hk]
    push_cast
    ring
  · refine ⟨0, ?_⟩
    rw [addLoop_eq_self h]
    push_cast
    ring
termination_by (⌈(prev - curr - 180) / 360⌉).toNat
decreasing_by
  have h1 : (0 : K) < (prev - curr - 180) / 360 := by
    apply div_pos
    · linarith
    · norm_num
  have h2 : 0 < ⌈(prev - curr - 180) / 360⌉ := Int.ceil_pos.mpr h1
  have h3 : (prev - (curr + 360) - 180) / 360 = (prev - curr - 180) / 360 - 1 := by
    ring
  rw [h3, Int.ceil_sub_one]
  omega

lemma unwrapAdjust_bound (prev curr : K) : |unwrapAdjust prev curr - prev| ≤ 180 := by
  unfold unwrapAdjust
  have hle : subLoop prev curr - prev ≤ 180 := subLoop_sub_le prev curr
  by_cases hge : -180 ≤ subLoop prev curr - prev
  · rw [addLoop_eq_self (show ¬ subLoop prev curr - prev < -180 by linarith)]
    rw [abs_le]
    exact ⟨by linarith, by linarith⟩
  · push_neg at hge
    have h2 := addLoop_sub_ge prev (subLoop prev curr)
    rcases addLoop_cases prev (subLoop prev curr) with h1 | h1
    · exfalso
      rw [h1] at h2
      linarith
    · rw [abs_le]
      exact ⟨h2, by linarith⟩

lemma unwrapAdjust_congr (prev curr : K) :
    ∃ k : ℤ, unwrapAdjust prev curr = curr + 360 * (k : K) := by
  unfold unwrapAdjust
  obtain ⟨k1, hk1⟩ := subLoop_congr prev curr
  obtain ⟨k2, hk2⟩ := addLoop_congr prev (subLoop prev curr)
  refine ⟨k2 - k1, ?_⟩
  rw [hk2, hk1]
  push_cast
  ring

lemma unwrapAdjust_self (x : K) : unwrapAdjust x x = x := by
  unfold unwrapAdjust
  rw [subLoop_eq_self (by rw [sub_self]; norm_num),
    addLoop_eq_self (by rw [sub_self]; norm_num)]

lemma unwrapFrom_length (prev : K) (l : List (K × K)) :
    (unwrapFrom prev l).length = l.length := by
  induction l generalizing prev with
  | nil => rfl
  | cons p rest ih => simp [unwrapFrom, ih]

lemma unwrapLongitudes_length (pts : List (K × K)) :
    (unwrapLongitudes pts).length = pts.length := by
  cases pts with
  | nil => rfl
  | cons p rest => simp [unwrapLongitudes, unwrapFrom_length]

lemma unwrapFrom_map_fst (prev : K) (l : List (K × K)) :
    (unwrapFrom prev l).map Prod.fst = l.map Prod.fst := by
  induction l generalizing prev with
  | nil => rfl
  | cons p rest ih => simp [unwrapFrom, ih]

lemma unwrapLongitudes_map_fst (pts : List (K × K)) :
    (unwrapLongitudes pts).map Prod.fst = pts.map Prod.fst := by
  cases pts with
  | nil => rfl
  | cons p rest => simp [unwrapLongitudes, unwrapFrom_map_fst]

lemma unwrapFrom_chain (l : List (K × K)) :
    ∀ lat prev : K,
      List.Chain' (fun a b => |b.2 - a.2| ≤ 180) ((lat, prev) :: unwrapFrom prev l) := by
  induction l with
  | nil =>
    intro lat prev
    simp [unwrapFrom]
  | cons p rest ih =>
    intro lat prev
    simp only [unwrapFrom]
    rw [List.chain'_cons]
    exact ⟨unwrapAdjust_bound prev p.2, ih p.1 (unwrapAdjust prev p.2)⟩

lemma unwrapLongitudes_chain (pts : List (K × K)) :
    List.Chain' (fun a b : K × K => |b.2 - a.2| ≤ 180) (unwrapLongitudes pts) := by
  cases pts with
  | nil => simp [unwrapLongitudes]
  | cons p rest => exact unwrapFrom_chain rest p.1 p.2

lemma unwrapFrom_getD (l : List (K × K)) :
    ∀ (prev : K) (i : ℕ), i < l.length →
      ((unwrapFrom prev l).getD i (0, 0)).1 = (l.getD i (0, 0)).1 ∧
      ∃ k : ℤ, ((unwrapFrom prev l).getD i (0, 0)).2 = (l.getD i (0, 0)).2 + 360 * (k : K) := by
  induction l with
  | nil =>
    intro prev i hi
    simp at hi
  | cons p rest ih =>
    intro prev i hi
    cases i with
    | zero =>
      simp only [unwrapFrom, List.getD_cons_zero]
      exact ⟨by trivial, unwrapAdjust_congr prev p.2⟩
    | succ j =>
      simp only [unwrapFrom, List.getD_cons_succ]
      exact ih (unwrapAdjust prev p.2) j (by simpa using hi)

lemma unwrapLongitudes_getD (pts : List (K × K)) (i : ℕ) (hi : i < pts.length) :
    ((unwrapLongitudes pts).getD i (0, 0)).1 = (pts.getD i (0, 0)).1 ∧
    ∃ k : ℤ, ((unwrapLongitudes pts).getD i (0, 0)).2 = (pts.getD i (0, 0)).2 + 360 * (k : K) := by
  cases pts with
  | nil => simp at hi
  | cons p rest =>
    cases i with
    | zero => exact ⟨rfl, 0, by simp [unwrapLongitudes]⟩
    | succ j =>
      simp only [unwrapLongitudes, List.getD_cons_succ]
      exact unwrapFrom_getD rest p.2 j (by simpa using hi)

lemma unwrapFrom_forall₂ (l : List (K × K)) :
    ∀ prev : K,
      List.Forall₂ (fun p q => q.1 = p.1 ∧ ∃ k : ℤ, q.2 = p.2 + 360 * (k : K))
        l (unwrapFrom prev l) := by
  induction l with
  | nil =>
    intro prev
    exact List.Forall₂.nil
  | cons p rest ih =>
    intro prev
    exact List.Forall₂.cons ⟨rfl, unwrapAdjust_congr prev p.2⟩ (ih _)

/-- Claim C4: the unwrap pass keeps the sequence's length and order,
    leaves every latitude unchanged, and afterwards every pair of
    consecutive longitudes differs by at most 180 degrees. -/
theorem unwrapLongitudes_invariant (pts : List (K × K)) :
    (unwrapLongitudes pts).length = pts.length ∧
    (unwrapLongitudes pts).map Prod.fst = pts.map Prod.fst ∧
    ∀ i : ℕ, i + 1 < (unwrapLongitudes pts).length →
      |((unwrapLongitudes pts).getD (i + 1) (0, 0)).2 -
        ((unwrapLongitudes pts).getD i (0, 0)).2| ≤ 180 := by
  refine ⟨unwrapLongitudes_length pts, unwrapLongitudes_map_fst pts, ?_⟩
  intro i hi
  have hc := unwrapLongitudes_chain pts
  rw [List.chain'_iff_get] at hc
  have hstep := hc i (by omega)
  have e1 : (unwrapLongitudes pts).getD (i + 1) (0, 0) =
      (unwrapLongitudes pts).get ⟨i + 1, hi⟩ := by
    rw [List.getD_eq_getElem?_getD, List.getElem?_eq_getElem hi, Option.getD_some,
      List.get_eq_getElem]
  have e2 : (unwrapLongitudes pts).getD i (0, 0) =
      (unwrapLongitudes pts).get ⟨i, by omega⟩ := by
    rw [List.getD_eq_getElem?_getD, List.getElem?_eq_getElem (by omega), Option.getD_some,
      List.get_eq_getElem]
  rw [e1, e2]
  exact hstep

/-- Witness for C4's theorem at a concrete rational input crossing the
    antimeridian. -/
theorem unwrapLongitudes_invariant_witness :
    |((unwrapLongitudes [((0 : ℚ), 170), (0, -170)]).getD 1 (0, 0)).2 -
      ((unwrapLongitudes [((0 : ℚ), 170), (0, -170)]).getD 0 (0, 0)).2| ≤ 180 :=
  (unwrapLongitudes_invariant [((0 : ℚ), 170), (0, -170)]).2.2 0
    (by rw [unwrapLongitudes_length]; norm_num)

/-- Claim C10: the unwrap pass changes each longitude only by an integer
    multiple of 360 degrees and keeps each latitude, pointwise along the
    sequence. -/
theorem unwrapLongitudes_congr_mod360 (pts : List (K × K)) :
    List.Forall₂ (fun p q => q.1 = p.1 ∧ ∃ k : ℤ, q.2 = p.2 + 360 * (k : K))
      pts (unwrapLongitudes pts) := by
  cases pts with
  | nil => exact List.Forall₂.nil
  | cons p rest => exact List.Forall₂.cons ⟨rfl, 0, by simp⟩ (unwrapFrom_forall₂ rest p.2)

/- ------------------------------------------------------------------ -/
/- GeoMath: getArcPoints (src/lib/utils.ts) over exact reals.         -/
/- ------------------------------------------------------------------ -/

/-- JavaScript Math.atan2(y, x): the argument of the point (x, y), in
    (-pi, pi]. -/
noncomputable def atan2 (y x : ℝ) : ℝ :=
  Complex.arg (Complex.ofReal x + Complex.ofReal y * Complex.I)

/-- The haversine central angle `d` computed inside getArcPoints' loop
    (the expression does not depend on the loop index, so it is factored
    out here verbatim). -/
noncomputable def haversineD (s e : ℝ × ℝ) : ℝ :=
  let lat1 := s.1 * Real.pi / 180
  let lon1 := s.2 * Real.pi / 180
  let lat2 := e.1 * Real.pi / 180
  let lon2 := e.2 * Real.pi / 180
  2 * Real.arcsin (Real.sqrt (Real.sin ((lat2 - lat1) / 2) ^ 2 +
    Real.cos lat1 * Real.cos lat2 * Real.sin ((lon2 - lon1) / 2) ^ 2))

/-- One iteration of getArcPoints' main loop: the raw point for index i
    (degenerate d = 0 branch pushes the start coordinate). -/
noncomputable def arcRawPoint (s e : ℝ × ℝ) (numPoints i : ℕ) : ℝ × ℝ :=
  let lat1 := s.1 * Real.pi / 180
  let lon1 := s.2 * Real.pi / 180
  let lat2 := e.1 * Real.pi / 180
  let lon2 := e.2 * Real.pi / 180
  let f : ℝ := (i : ℝ) / (numPoints : ℝ)
  let d := haversineD s e
  if d = 0 then s
  else
    let A := Real.sin ((1 - f) * d) / Real.sin d
    let B := Real.sin (f * d) / Real.sin d
    let x := A * Real.cos lat1 * Real.cos lon1 + B * Real.cos lat2 * Real.cos lon2
    let y := A * Real.cos lat1 * Real.sin lon1 + B * Real.cos lat2 * Real.sin lon2
    let z := A * Real.sin lat1 + B * Real.sin lat2
    let lat := atan2 z (Real.sqrt (x ^ 2 + y ^ 2))
    let lon := atan2 y x
    (lat * 180 / Real.pi, lon * 180 / Real.pi)

/-- The raw interpolated points of getArcPoints before the unwrap loop
    (loop `for i = 0; i <= numPoints`, hence numPoints + 1 points). -/
noncomputable def rawArcPoints (s e : ℝ × ℝ) (numPoints : ℕ) : List (ℝ × ℝ) :=
  (List.range (numPoints + 1)).map (fun i => arcRawPoint s e numPoints i)

/-- getArcPoints (src/lib/utils.ts): raw interpolation followed by the
    longitude unwrap. -/
noncomputable def getArcPoints (s e : ℝ × ℝ) (numPoints : ℕ) : List (ℝ × ℝ) :=
  unwrapLongitudes (rawArcPoints s e numPoints)

lemma atan2_cos_sin {θ : ℝ} (h : θ ∈ Set.Ioc (-Real.pi) Real.pi) :
    atan2 (Real.sin θ) (Real.cos θ) = θ := by
  unfold atan2
  rw [Complex.ofReal_cos, Complex.ofReal_sin]
  exact Complex.arg_cos_add_sin_mul_I h

lemma atan2_smul {r y x : ℝ} (hr : 0 < r) : atan2 (r * y) (r * x) = atan2 y x := by
  unfold atan2
  have h : (Complex.ofReal (r * x) + Complex.ofReal (r * y) * Complex.I) =
      (r : ℂ) * (Complex.ofReal x + Complex.ofReal y * Complex.I) := by
    push_cast
    ring
  rw [h, Complex.arg_real_mul _ hr]

lemma sqrt_xy_sq (φ lo : ℝ) :
    Real.sqrt ((Real.cos φ * Real.cos lo) ^ 2 + (Real.cos φ * Real.sin lo) ^ 2) =
      |Real.cos φ| := by
  have h : (Real.cos φ * Real.cos lo) ^ 2 + (Real.cos φ * Real.sin lo) ^ 2 =
      Real.cos φ ^ 2 := by
    linear_combination Real.cos φ ^ 2 * Real.sin_sq_add_cos_sq lo
  rw [h, Real.sqrt_sq_eq_abs]

lemma atan2_recover_lat {φ : ℝ} (lo : ℝ) (h1 : -(Real.pi / 2) < φ)
    (h2 : φ < Real.pi / 2) :
    atan2 (Real.sin φ)
      (Real.sqrt ((Real.cos φ * Real.cos lo) ^ 2 + (Real.cos φ * Real.sin lo) ^ 2)) =
      φ := by
  rw [sqrt_xy_sq, abs_of_pos (Real.cos_pos_of_mem_Ioo ⟨h1, h2⟩)]
  exact atan2_cos_sin ⟨by linarith [Real.pi_pos], by linarith [Real.pi_pos]⟩

lemma atan2_recover_lon {φ lo : ℝ} (hcos : 0 < Real.cos φ)
    (hlo : lo ∈ Set.Ioc (-Real.pi) Real.pi) :
    atan2 (Real.cos φ * Real.sin lo) (Real.cos φ * Real.cos lo) = lo := by
  rw [atan2_smul hcos]
  exact atan2_cos_sin hlo

lemma two_arcsin_nonneg {x : ℝ} (h : 0 ≤ x) : 0 ≤ 2 * Real.arcsin x := by
  have := Real.arcsin_nonneg.mpr h
  linarith

lemma two_arcsin_le_pi (x : ℝ) : 2 * Real.arcsin x ≤ Real.pi := by
  have := Real.arcsin_le_pi_div_two x
  linarith

lemma haversineD_nonneg (s e : ℝ × ℝ) : 0 ≤ haversineD s e := by
  simp only [haversineD]
  exact two_arcsin_nonneg (Real.sqrt_nonneg _)

lemma haversineD_le_pi (s e : ℝ × ℝ) : haversineD s e ≤ Real.pi := by
  simp only [haversineD]
  exact two_arcsin_le_pi _

lemma haversineD_self (p : ℝ × ℝ) : haversineD p p = 0 := by
  simp only [haversineD]
  rw [sub_self, sub_self]
  norm_num [Real.sin_zero, Real.sqrt_zero, Real.arcsin_zero]

lemma haversine_zero_components {la1 la2 lo1 lo2 : ℝ}
    (hc1 : 0 < Real.cos la1) (hc2 : 0 < Real.cos la2)
    (h : 2 * Real.arcsin (Real.sqrt (Real.sin ((la2 - la1) / 2) ^ 2 +
        Real.cos la1 * Real.cos la2 * Real.sin ((lo2 - lo1) / 2) ^ 2)) = 0) :
    Real.sin ((la2 - la1) / 2) = 0 ∧ Real.sin ((lo2 - lo1) / 2) = 0 := by
  set a := Real.sin ((la2 - la1) / 2) with ha
  set b := Real.sin ((lo2 - lo1) / 2) with hb
  have harc : Real.arcsin (Real.sqrt (a ^ 2 + Real.cos la1 * Real.cos la2 * b ^ 2)) = 0 := by
    linarith
  have t1 : 0 ≤ Real.cos la1 * Real.cos la2 * b ^ 2 :=
    mul_nonneg (mul_nonneg hc1.le hc2.le) (sq_nonneg b)
  have hEnn : 0 ≤ a ^ 2 + Real.cos la1 * Real.cos la2 * b ^ 2 := by
    have t2 := sq_nonneg a
    linarith
  have hE0 : a ^ 2 + Real.cos la1 * Real.cos la2 * b ^ 2 = 0 := by
    by_contra hne
    have hEpos : 0 < a ^ 2 + Real.cos la1 * Real.cos la2 * b ^ 2 :=
      lt_of_le_of_ne hEnn (Ne.symm hne)
    have h1 : 0 < Real.sqrt (a ^ 2 + Real.cos la1 * Real.cos la2 * b ^ 2) :=
      Real.sqrt_pos.mpr hEpos
    have h2 : 0 < Real.arcsin (Real.sqrt (a ^ 2 + Real.cos la1 * Real.cos la2 * b ^ 2)) :=
      Real.arcsin_pos.mpr h1
    linarith
  constructor
  · have ha2 : a ^ 2 = 0 := by
      have t2 := sq_nonneg a
      linarith
    exact (pow_eq_zero_iff (by norm_num : (2 : ℕ) ≠ 0)).mp ha2
  · have hcc : 0 < Real.cos la1 * Real.cos la2 := mul_pos hc1 hc2
    have hb2 : b ^ 2 = 0 := by
      have t2 := sq_nonneg a
      have t3 := sq_nonneg b
      nlinarith
    exact (pow_eq_zero_iff (by norm_num : (2 : ℕ) ≠ 0)).mp hb2

lemma cos_deg_pos {x : ℝ} (h1 : -90 < x) (h2 : x < 90) :
    0 < Real.cos (x * Real.pi / 180) := by
  apply Real.cos_pos_of_mem_Ioo
  constructor
  · nlinarith [Real.pi_pos]
  · nlinarith [Real.pi_pos]

lemma rad_mem_Ioc {x : ℝ} (h1 : -180 < x) (h2 : x ≤ 180) :
    x * Real.pi / 180 ∈ Set.Ioc (-Real.pi) Real.pi := by
  constructor
  · nlinarith [Real.pi_pos]
  · nlinarith [Real.pi_pos]

lemma eq_of_haversineD_eq_zero {p q : ℝ × ℝ}
    (hp1 : -90 < p.1) (hp2 : p.1 < 90) (hq1 : -90 < q.1) (hq2 : q.1 < 90)
    (hp3 : -180 < p.2) (hp4 : p.2 ≤ 180) (hq3 : -180 < q.2) (hq4 : q.2 ≤ 180)
    (h : haversineD p q = 0) : p = q := by
  simp only [haversineD] at h
  have hπ := Real.pi_pos
  have hc1 : 0 < Real.cos (p.1 * Real.pi / 180) := cos_deg_pos hp1 hp2
  have hc2 : 0 < Real.cos (q.1 * Real.pi / 180) := cos_deg_pos hq1 hq2
  obtain ⟨hlat, hlon⟩ := haversine_zero_components hc1 hc2 h
  have hzlat : (q.1 * Real.pi / 180 - p.1 * Real.pi / 180) / 2 = 0 := by
    have hb1 : -Real.pi < (q.1 * Real.pi / 180 - p.1 * Real.pi / 180) / 2 := by nlinarith
    have hb2 : (q.1 * Real.pi / 180 - p.1 * Real.pi / 180) / 2 < Real.pi := by nlinarith
    exact (Real.sin_eq_zero_iff_of_lt_of_lt hb1 hb2).mp hlat
  have hzlon : (q.2 * Real.pi / 180 - p.2 * Real.pi / 180) / 2 = 0 := by
    have hb1 : -Real.pi < (q.2 * Real.pi / 180 - p.2 * Real.pi / 180) / 2 := by nlinarith
    have hb2 : (q.2 * Real.pi / 180 - p.2 * Real.pi / 180) / 2 < Real.pi := by nlinarith
    exact (Real.sin_eq_zero_iff_of_lt_of_lt hb1 hb2).mp hlon
  have e1 : (q.1 - p.1) * Real.pi = 0 := by linarith
  have e2 : (q.2 - p.2) * Real.pi = 0 := by linarith
  have f1 : q.1 = p.1 := by
    rcases mul_eq_zero.mp e1 with h' | h'
    · linarith
    · exact absurd h' Real.pi_ne_zero
  have f2 : q.2 = p.2 := by
    rcases mul_eq_zero.mp e2 with h' | h'
    · linarith
    · exact absurd h' Real.pi_ne_zero
  exact Prod.ext f1.symm f2.symm

lemma rad_deg_cancel (x : ℝ) : x * Real.pi / 180 * 180 / Real.pi = x := by
  have h : x * Real.pi / 180 * 180 / Real.pi = x * (Real.pi / Real.pi) := by
    ring
  rw [h, div_self Real.pi_ne_zero, mul_one]

lemma arcRawPoint_start (s e : ℝ × ℝ) (n i : ℕ)
    (hf : (i : ℝ) / (n : ℝ) = 0)
    (hsin : Real.sin (haversineD s e) ≠ 0)
    (h1 : -90 < s.1) (h2 : s.1 < 90) (h3 : -180 < s.2) (h4 : s.2 ≤ 180) :
    arcRawPoint s e n i = s := by
  have hd0 : haversineD s e ≠ 0 := by
    intro h
    rw [h] at hsin
    exact hsin Real.sin_zero
  simp only [arcRawPoint]
  rw [if_neg hd0, hf]
  have eA : (1 - (0 : ℝ)) * haversineD s e = haversineD s e := by ring
  have eB : (0 : ℝ) * haversineD s e = 0 := by ring
  rw [eA, eB, Real.sin_zero, zero_div, div_self hsin]
  simp only [one_mul, zero_mul, add_zero]
  have hπ := Real.pi_pos
  have hφ1 : -(Real.pi / 2) < s.1 * Real.pi / 180 := by nlinarith
  have hφ2 : s.1 * Real.pi / 180 < Real.pi / 2 := by nlinarith
  have hcos : 0 < Real.cos (s.1 * Real.pi / 180) := cos_deg_pos h1 h2
  rw [atan2_recover_lat (s.2 * Real.pi / 180) hφ1 hφ2,
    atan2_recover_lon hcos (rad_mem_Ioc h3 h4)]
  rw [Prod.ext_iff]
  exact ⟨rad_deg_cancel s.1, rad_deg_cancel s.2⟩

lemma arcRawPoint_end (s e : ℝ × ℝ) (n i : ℕ)
    (hf : (i : ℝ) / (n : ℝ) = 1)
    (hsin : Real.sin (haversineD s e) ≠ 0)
    (h1 : -90 < e.1) (h2 : e.1 < 90) (h3 : -180 < e.2) (h4 : e.2 ≤ 180) :
    arcRawPoint s e n i = e := by
  have hd0 : haversineD s e ≠ 0 := by
    intro h
    rw [h] at hsin
    exact hsin Real.sin_zero
  simp only [arcRawPoint]
  rw [if_neg hd0, hf]
  have eA : (1 - (1 : ℝ)) * haversineD s e = 0 := by ring
  have eB : (1 : ℝ) * haversineD s e = haversineD s e := by ring
  rw [eA, eB, Real.sin_zero, zero_div, div_self hsin]
  simp only [one_mul, zero_mul, zero_add]
  have hπ := Real.pi_pos
  have hφ1 : -(Real.pi / 2) < e.1 * Real.pi / 180 := by nlinarith
  have hφ2 : e.1 * Real.pi / 180 < Real.pi / 2 := by nlinarith
  have hcos : 0 < Real.cos (e.1 * Real.pi / 180) := cos_deg_pos h1 h2
  rw [atan2_recover_lat (e.2 * Real.pi / 180) hφ1 hφ2,
    atan2_recover_lon hcos (rad_mem_Ioc h3 h4)]
  rw [Prod.ext_iff]
  exact ⟨rad_deg_cancel e.1, rad_deg_cancel e.2⟩

lemma unwrapFrom_replicate (p : ℝ × ℝ) (m : ℕ) :
    unwrapFrom p.2 (List.replicate m p) = List.replicate m p := by
  induction m with
  | zero => rfl
  | succ k ih =>
    simp only [List.replicate_succ, unwrapFrom]
    rw [unwrapAdjust_self, ih]

lemma getArcPoints_self (p : ℝ × ℝ) (n : ℕ) :
    getArcPoints p p n = List.replicate (n + 1) p := by
  have hd : haversineD p p = 0 := haversineD_self p
  have hpt : ∀ i : ℕ, arcRawPoint p p n i = p := by
    intro i
    simp only [arcRawPoint]
    rw [if_pos hd]
  have hraw : rawArcPoints p p n = List.replicate (n + 1) p := by
    unfold rawArcPoints
    rw [List.map_congr_left (fun a _ => hpt a), List.map_const', List.length_range]
  unfold getArcPoints
  rw [hraw, List.replicate_succ]
  simp only [unwrapLongitudes]
  rw [unwrapFrom_replicate, ← List.replicate_succ]

/-- Claim C6: interpolating from a coordinate to itself takes the
    degenerate d = 0 branch for every step, returning the point repeated
    numPoints + 1 times with no division by sin d. -/
theorem getArcPoints_coincident (p : ℝ × ℝ) (n : ℕ) (hn : 0 < n) :
    getArcPoints p p n = List.replicate (n + 1) p :=
  getArcPoints_self p n

/-- Witness for C6's theorem at a concrete coordinate. -/
theorem getArcPoints_coincident_witness :
    getArcPoints (12, 34) (12, 34) 1 = List.replicate 2 (12, 34) :=
  getArcPoints_coincident (12, 34) 1 (by norm_num)

lemma rawArcPoints_length (s e : ℝ × ℝ) (n : ℕ) :
    (rawArcPoints s e n).length = n + 1 := by
  unfold rawArcPoints
  rw [List.length_map, List.length_range]

lemma rawArcPoints_getD (s e : ℝ × ℝ) (n i : ℕ) (hi : i < n + 1) :
    (rawArcPoints s e n).getD i (0, 0) = arcRawPoint s e n i := by
  unfold rawArcPoints
  rw [List.getD_eq_getElem?_getD, List.getElem?_map, List.getElem?_range hi]
  rfl

lemma unwrapLongitudes_getD_zero (pts : List (ℝ × ℝ)) :
    (unwrapLongitudes pts).getD 0 (0, 0) = pts.getD 0 (0, 0) := by
  cases pts <;> rfl

/-- Claim C1 (amended): for valid, non-pole coordinates that are not
    antipodal and a positive step count, getArcPoints returns exactly
    n + 1 points, the first equal to the start coordinate, and the last
    equal to the end coordinate up to adding an integer multiple of 360
    degrees to the longitude (the unwrap pass may shift it; latitude is
    exact). -/
theorem getArcPoints_endpoints (p q : ℝ × ℝ) (n : ℕ) (hn : 1 ≤ n)
    (hp1 : -90 < p.1) (hp2 : p.1 < 90) (hp3 : -180 < p.2) (hp4 : p.2 ≤ 180)
    (hq1 : -90 < q.1) (hq2 : q.1 < 90) (hq3 : -180 < q.2) (hq4 : q.2 ≤ 180)
    (hanti : haversineD p q ≠ Real.pi) :
    (getArcPoints p q n).length = n + 1 ∧
    (getArcPoints p q n).getD 0 (0, 0) = p ∧
    ∃ k : ℤ, (getArcPoints p q n).getD n (0, 0) = (q.1, q.2 + 360 * (k : ℝ)) := by
  have hlen : (getArcPoints p q n).length = n + 1 := by
    unfold getArcPoints
    rw [unwrapLongitudes_length, rawArcPoints_length]
  refine ⟨hlen, ?_⟩
  by_cases hd : haversineD p q = 0
  · have hpq : p = q := eq_of_haversineD_eq_zero hp1 hp2 hq1 hq2 hp3 hp4 hq3 hq4 hd
    subst hpq
    rw [getArcPoints_self]
    constructor
    · rw [List.replicate_succ]
      rfl
    · refine ⟨0, ?_⟩
      have hrep : (List.replicate (n + 1) p).getD n (0, 0) = p := by
        rw [List.getD_eq_getElem?_getD, List.getElem?_replicate_of_lt (by omega)]
        rfl
      rw [hrep]
      rw [Prod.ext_iff]
      constructor
      · rfl
      · show p.2 = p.2 + 360 * ((0 : ℤ) : ℝ)
        simp
  · have hd_pos : 0 < haversineD p q :=
      lt_of_le_of_ne (haversineD_nonneg p q) (Ne.symm hd)
    have hd_lt : haversineD p q < Real.pi :=
      lt_of_le_of_ne (haversineD_le_pi p q) hanti
    have hsin : Real.sin (haversineD p q) ≠ 0 :=
      ne_of_gt (Real.sin_pos_of_pos_of_lt_pi hd_pos hd_lt)
    have hne : (n : ℝ) ≠ 0 := Nat.cast_ne_zero.mpr (by omega)
    constructor
    · unfold getArcPoints
      rw [unwrapLongitudes_getD_zero, rawArcPoints_getD p q n 0 (by omega)]
      exact arcRawPoint_start p q n 0 (by simp) hsin hp1 hp2 hp3 hp4
    · have hql : (rawArcPoints p q n).getD n (0, 0) = q := by
        rw [rawArcPoints_getD p q n n (by omega)]
        exact arcRawPoint_end p q n n (div_self hne) hsin hq1 hq2 hq3 hq4
      obtain ⟨hfst, k, hsnd⟩ :=
        unwrapLongitudes_getD (rawArcPoints p q n) n (by rw [rawArcPoints_length]; omega)
      refine ⟨k, ?_⟩
      unfold getArcPoints
      rw [Prod.ext_iff]
      constructor
      · show ((unwrapLongitudes (rawArcPoints p q n)).getD n (0, 0)).1 = q.1
        rw [hfst, hql]
      · show ((unwrapLongitudes (rawArcPoints p q n)).getD n (0, 0)).2 =
          q.2 + 360 * (k : ℝ)
        rw [hsnd, hql]

lemma haversineD_cex : haversineD (0, 170) (0, -170) = Real.pi / 9 := by
  have hπ := Real.pi_pos
  show 2 * Real.arcsin (Real.sqrt (
      Real.sin (((0:ℝ) * Real.pi / 180 - (0:ℝ) * Real.pi / 180) / 2) ^ 2 +
      Real.cos ((0:ℝ) * Real.pi / 180) * Real.cos ((0:ℝ) * Real.pi / 180) *
        Real.sin (((-170:ℝ) * Real.pi / 180 - (170:ℝ) * Real.pi / 180) / 2) ^ 2)) =
    Real.pi / 9
  rw [show ((0:ℝ) * Real.pi / 180 - (0:ℝ) * Real.pi / 180) / 2 = 0 by ring,
    show ((-170:ℝ) * Real.pi / 180 - (170:ℝ) * Real.pi / 180) / 2 =
      -(17 * Real.pi / 18) by ring,
    Real.sin_zero, Real.sin_neg, show (0:ℝ) * Real.pi / 180 = 0 by ring,
    Real.cos_zero]
  rw [show (0:ℝ) ^ 2 + 1 * 1 * (-Real.sin (17 * Real.pi / 18)) ^ 2 =
    Real.sin (17 * Real.pi / 18) ^ 2 by ring]
  have hs_nonneg : 0 ≤ Real.sin (17 * Real.pi / 18) :=
    Real.sin_nonneg_of_nonneg_of_le_pi (by positivity) (by linarith)
  rw [Real.sqrt_sq hs_nonneg,
    show (17:ℝ) * Real.pi / 18 = Real.pi - Real.pi / 18 by ring, Real.sin_pi_sub,
    Real.arcsin_sin (by linarith) (by linarith)]
  ring

lemma cex_raw0 : arcRawPoint (0, 170) (0, -170) 1 0 = ((0:ℝ), 170) := by
  have hπ := Real.pi_pos
  apply arcRawPoint_start
  · norm_num
  · rw [haversineD_cex]
    exact ne_of_gt (Real.sin_pos_of_pos_of_lt_pi (by linarith) (by linarith))
  · norm_num
  · norm_num
  · norm_num
  · norm_num

lemma cex_raw1 : arcRawPoint (0, 170) (0, -170) 1 1 = ((0:ℝ), -170) := by
  have hπ := Real.pi_pos
  apply arcRawPoint_end
  · norm_num
  · rw [haversineD_cex]
    exact ne_of_gt (Real.sin_pos_of_pos_of_lt_pi (by linarith) (by linarith))
  · norm_num
  · norm_num
  · norm_num
  · norm_num

lemma cex_raw : rawArcPoints (0, 170) (0, -170) 1 = [((0:ℝ), 170), (0, -170)] := by
  unfold rawArcPoints
  rw [show List.range 2 = [0, 1] by decide]
  rw [List.map_cons, List.map_cons, List.map_nil, cex_raw0, cex_raw1]

lemma cex_adjust : unwrapAdjust (170 : ℝ) (-170) = 190 := by
  unfold unwrapAdjust
  rw [subLoop_eq_self (by norm_num),
    addLoop_step (by norm_num : (-170 : ℝ) - 170 < -180),
    addLoop_eq_self (show ¬ ((-170 : ℝ) + 360) - 170 < -180 by norm_num)]
  norm_num

lemma cex_unwrap :
    unwrapLongitudes [((0:ℝ), 170), (0, -170)] = [((0:ℝ), 170), (0, 190)] := by
  simp only [unwrapLongitudes, unwrapFrom]
  norm_num [cex_adjust]

/-- Counterexample to claim C1 as stated: interpolating across the
    antimeridian from (0, 170) to (0, -170) with one step yields the last
    point (0, 190), whose longitude differs from the end coordinate's
    longitude -170 by 360 degrees, far beyond a 1e-6 tolerance. -/
theorem getArcPoints_last_counterexample :
    getArcPoints (0, 170) (0, -170) 1 = [((0:ℝ), 170), (0, 190)] ∧
    ¬ |((getArcPoints (0, 170) (0, -170) 1).getD 1 (0, 0)).2 - (-170)| ≤ 1e-6 := by
  have h : getArcPoints (0, 170) (0, -170) 1 = [((0:ℝ), 170), (0, 190)] := by
    unfold getArcPoints
    rw [cex_raw, cex_unwrap]
  refine ⟨h, ?_⟩
  have e : ((getArcPoints (0, 170) (0, -170) 1).getD 1 (0, 0)).2 = 190 := by
    rw [h]
    rfl
  rw [e, show (190:ℝ) - (-170) = 360 by norm_num,
    abs_of_pos (by norm_num : (0:ℝ) < 360)]
  norm_num

lemma haversineD_witness_val : haversineD (0, 0) (45, 0) = Real.pi / 4 := by
  have hπ := Real.pi_pos
  show 2 * Real.arcsin (Real.sqrt (
      Real.sin (((45:ℝ) * Real.pi / 180 - (0:ℝ) * Real.pi / 180) / 2) ^ 2 +
      Real.cos ((0:ℝ) * Real.pi / 180) * Real.cos ((45:ℝ) * Real.pi / 180) *
        Real.sin (((0:ℝ) * Real.pi / 180 - (0:ℝ) * Real.pi / 180) / 2) ^ 2)) =
    Real.pi / 4
  rw [show ((45:ℝ) * Real.pi / 180 - (0:ℝ) * Real.pi / 180) / 2 = Real.pi / 8 by ring,
    show ((0:ℝ) * Real.pi / 180 - (0:ℝ) * Real.pi / 180) / 2 = 0 by ring,
    Real.sin_zero]
  rw [show Real.sin (Real.pi / 8) ^ 2 +
      Real.cos ((0:ℝ) * Real.pi / 180) * Real.cos ((45:ℝ) * Real.pi / 180) * 0 ^ 2 =
      Real.sin (Real.pi / 8) ^ 2 by ring]
  rw [Real.sqrt_sq (Real.sin_nonneg_of_nonneg_of_le_pi (by positivity) (by linarith)),
    Real.arcsin_sin (by linarith) (by linarith)]
  ring

/-- Witness for C1's amended theorem at concrete coordinates. -/
theorem getArcPoints_endpoints_witness :
    (getArcPoints (0, 0) (45, 0) 1).length = 1 + 1 ∧
    (getArcPoints (0, 0) (45, 0) 1).getD 0 (0, 0) = ((0:ℝ), (0:ℝ)) ∧
    ∃ k : ℤ, (getArcPoints (0, 0) (45, 0) 1).getD 1 (0, 0) =
      ((45:ℝ), (0:ℝ) + 360 * (k : ℝ)) :=
  getArcPoints_endpoints (0, 0) (45, 0) 1 (by norm_num)
    (by norm_num) (by norm_num) (by norm_num) (by norm_num)
    (by norm_num) (by norm_num) (by norm_num) (by norm_num)
    (by
      rw [haversineD_witness_val]
      have hπ := Real.pi_pos
      intro hc
      linarith)

/- ------------------------------------------------------------------ -/
/- The drawing pass of FlightMap.tsx (routesToShow.forEach).          -/
/- ------------------------------------------------------------------ -/

/-- One rendered route of FlightMap's drawing pass: the polyline path,
    the display color (`none` models the undefined colorAirline case on
    which the source's getAirlineColor would throw), the tooltip operator
    label and the destination marker at the arc's last point. -/
structure DrawnRoute where
  path : List (ℝ × ℝ)
  color : Option String
  label : String
  marker : Option (ℝ × ℝ)

/-- Tooltip operator label: first three operator names (resolved through
    the airline map, falling back to the raw code) plus an overflow
    count, as in FlightMap.tsx. -/
def routeLabel (airlineMap : String → Option Airline) (operators : List String) : String :=
  String.intercalate ", "
    ((operators.take 3).map (fun code =>
      match airlineMap code with
      | some al => al.name
      | none => code)) ++
  (if 3 < operators.length then " +" ++ toString (operators.length - 3) ++ " more"
   else "")

/-- FlightMap.tsx, the routesToShow.forEach drawing pass: a route whose
    origin or destination code does not resolve in the airport map is
    skipped by the early return; every other route contributes one drawn
    route, in order. -/
noncomputable def drawRoutes (airportMap : String → Option Airport)
    (airlineMap : String → Option Airline) (filters : Filters)
    (routes : List Route) : List DrawnRoute :=
  routes.filterMap (fun route =>
    match airportMap route.origin, airportMap route.destination with
    | some originAirport, some destAirport =>
      some
        { path := getArcPoints (originAirport.lat, originAirport.lon)
            (destAirport.lat, destAirport.lon) 30
          color := (colorAirline filters route.operators).map getAirlineColor
          label := routeLabel airlineMap route.operators
          marker := (getArcPoints (originAirport.lat, originAirport.lon)
            (destAirport.lat, destAirport.lon) 30).getLast? }
    | _, _ => none)

/-- Claim C8: a route with an unresolvable endpoint is silently skipped by
    the drawing pass: it contributes no path, color, label or marker, and
    the remaining routes are processed exactly as if it were absent. -/
theorem drawRoutes_skips_unresolved (airportMap : String → Option Airport)
    (airlineMap : String → Option Airline) (filters : Filters)
    (pre post : List Route) (r : Route)
    (h : airportMap r.origin = none ∨ airportMap r.destination = none) :
    drawRoutes airportMap airlineMap filters (pre ++ r :: post) =
      drawRoutes airportMap airlineMap filters (pre ++ post) := by
  unfold drawRoutes
  rcases h with h | h
  · simp [List.filterMap_append, List.filterMap_cons, h]
  · cases ho : airportMap r.origin <;>
      simp [List.filterMap_append, List.filterMap_cons, h, ho]

/-- Witness for C8's theorem: a route with unresolvable endpoints is
    dropped from a singleton list. -/
theorem drawRoutes_skips_unresolved_witness :
    drawRoutes (fun _ => none) (fun _ => none) ⟨[], [], false⟩
        ([] ++ ⟨"AAA", "BBB", [], [], []⟩ :: []) =
      drawRoutes (fun _ => none) (fun _ => none) ⟨[], [], false⟩ ([] ++ []) :=
  drawRoutes_skips_unresolved (fun _ => none) (fun _ => none) ⟨[], [], false⟩ [] []
    ⟨"AAA", "BBB", [], [], []⟩ (Or.inl rfl)
